import Mathlib

/-!
# web-component-tester, `browser/mocha.js`

A shallow embedding of the Mocha adaptation layer: the table `MOCHA_EXPORTS`,
`stubInterfaces`, the closure `wrappedMochaFunction`, `_setupMocha` and
`extendInterfaces`, followed by the properties established about them.

Conventions of the embedding.

* The mutable pieces the module touches (the options object returned by
  `config.get('mochaOptions')`, the module variable `_mochaIsSetup`, the global
  object `window`) are fields of `World`; every operation passes the world
  explicitly and returns the world it leaves behind, also when it throws.
* A JavaScript call either returns a value or throws: `Except JSError _`.
* The test framework is external.  Its behaviour is a parameter (`Framework`):
  what `mocha.setup` does to the options object and to the globals, and what
  each of its own functions returns.
* Two ghost fields record what was called: `setupCalls` (every invocation of
  `mocha.setup`, with the options it received) and `realCalls` (every
  invocation of a framework function, with its arguments).
* Function identity (`===`) matters in `wrappedMochaFunction`; a closure made
  by the n-th run of `stubInterfaces` carries the number n.
* The call stack is finite: a call at depth 0 throws the engine's RangeError.
-/

namespace WCT

/-! ## Values -/

/-- JavaScript values passed as arguments, returned, or stored in a context.
`fn id` is a reference to the function numbered `id`. -/
inductive JSVal where
  | undefined
  | num (n : Int)
  | str (s : String)
  | fn (id : Nat)
  deriving DecidableEq, Repr

/-- An `Error` object; only its message is observed. -/
structure JSError where
  message : String
  deriving DecidableEq, Repr

/-- Functions that can sit in a global slot: a closure `wrappedMochaFunction`
created by run number `gen` of `stubInterfaces` (it captures `ui` and `key`),
or a function of the framework. -/
inductive JSFun where
  | wrapped (gen : Nat) (ui key : String)
  | native (id : Nat)
  deriving DecidableEq, Repr

/-! ## Objects as ordered property lists -/

/-- Reading the property `name` of an object given by its own properties, in
insertion order: `obj[name]`, `none` for `undefined`. -/
def getProp {α : Type} : List (String × α) → String → Option α
  | [], _ => none
  | (k, v) :: rest, name => if k = name then some v else getProp rest name

/-- Assigning to a property the object already has: `obj[name] = value`. -/
def setProp {α : Type} (obj : List (String × α)) (name : String) (value : α) :
    List (String × α) :=
  obj.map (fun p => if p.1 = name then (p.1, value) else p)

/-- The call `Object.keys(obj)`: each own property name once, in order. -/
def objectKeys {α : Type} (obj : List (String × α)) : List String :=
  (obj.map Prod.fst).dedup

/-! ## `MOCHA_EXPORTS` (lines 16-41) -/

/-- One interface of `MOCHA_EXPORTS`: method name, and its analog in the
opposite interface, in source order. -/
abbrev StyleDefinition := List (String × String)

/-- The entry `tdd` of `MOCHA_EXPORTS` (lines 18-25). -/
def MOCHA_EXPORTS_tdd : StyleDefinition :=
  [ ("setup", "\"before\""),
    ("teardown", "\"after\""),
    ("suiteSetup", "\"beforeEach\""),
    ("suiteTeardown", "\"afterEach\""),
    ("suite", "\"describe\" or \"context\""),
    ("test", "\"it\" or \"specify\"") ]

/-- The entry `bdd` of `MOCHA_EXPORTS` (lines 27-40). -/
def MOCHA_EXPORTS_bdd : StyleDefinition :=
  [ ("before", "\"setup\""),
    ("after", "\"teardown\""),
    ("beforeEach", "\"suiteSetup\""),
    ("afterEach", "\"suiteTeardown\""),
    ("describe", "\"suite\""),
    ("context", "\"suite\""),
    ("xdescribe", "\"suite.skip\""),
    ("xcontext", "\"suite.skip\""),
    ("it", "\"test\""),
    ("xit", "\"test.skip\""),
    ("specify", "\"test\""),
    ("xspecify", "\"test.skip\"") ]

/-- The table `MOCHA_EXPORTS`, keys in source order. -/
def MOCHA_EXPORTS : List (String × StyleDefinition) :=
  [("tdd", MOCHA_EXPORTS_tdd), ("bdd", MOCHA_EXPORTS_bdd)]

/-- The expression `MOCHA_EXPORTS[ui][key]` used as a string: the analog, or
the text of `undefined` when the entry does not exist. -/
def alternateOf (ui key : String) : String :=
  match getProp MOCHA_EXPORTS ui with
  | none => "undefined"
  | some defs =>
    match getProp defs key with
    | none => "undefined"
    | some alternate => alternate

/-- Every method name of every interface, in the order `stubInterfaces`
visits them. -/
def declarationNames : List String :=
  MOCHA_EXPORTS.flatMap (fun entry => entry.2.map Prod.fst)

/-! ## State -/

/-- The global object: slot name to the function it holds, `none` when the
slot is absent. -/
abbrev Window := String → Option JSFun

/-- The options object of Mocha; this module reads and writes its `ui`. -/
structure MochaOptions where
  ui : Option String
  deriving DecidableEq, Repr

/-- Everything the module reads or writes. -/
structure World where
  /-- the object `config.get('mochaOptions')` returns -/
  mochaOptions : MochaOptions
  /-- the module variable of line 91 -/
  _mochaIsSetup : Bool
  /-- the global object -/
  window : Window
  /-- how many times `stubInterfaces` has run (names the closures) -/
  closures : Nat
  /-- ghost: the options passed to each call of `mocha.setup`, oldest first -/
  setupCalls : List MochaOptions
  /-- ghost: each call of a framework function, oldest first -/
  realCalls : List (Nat × List JSVal)

/-- What one call of `mocha.setup` leaves behind. -/
structure SetupEffect where
  mochaOptions : MochaOptions
  window : Window
  thrown : Option JSError

/-- The external test framework. -/
structure Framework where
  /-- `mocha.setup(mochaOptions)`, given the options object and the globals -/
  setup : MochaOptions → Window → SetupEffect
  /-- the framework function numbered `id`, applied to an argument list -/
  call : Nat → List JSVal → Except JSError JSVal

/-- Modelled from the spec: `config.get` of the module `./config.js`, imported
at line 10; for the key `mochaOptions` it returns the mutable options object
kept in the world. -/
def config.get (w : World) : MochaOptions := w.mochaOptions

/-- JavaScript truthiness of `mochaOptions.ui`: set, and not the empty
string. -/
def truthy : Option String → Bool
  | none => false
  | some s => s != ""

/-- The text a string-or-undefined value contributes to a concatenation. -/
def toText : Option String → String
  | none => "undefined"
  | some s => s

/-! ## `_setupMocha` (lines 98-108) -/

/-- The message built at lines 101-102. -/
def mixingMessage (recorded : Option String) (ui key alternate : String) : String :=
  "Mixing " ++ toText recorded ++ " and " ++ ui ++ " Mocha styles is not supported. " ++
    "You called \"" ++ key ++ "\". Did you mean " ++ alternate ++ "?"

/-- The function `_setupMocha(ui, key, alternate)`. -/
def _setupMocha (mocha : Framework) (ui key alternate : String) (w : World) :
    World × Except JSError Unit :=
  let mochaOptions := config.get w
  if truthy mochaOptions.ui && mochaOptions.ui != some ui then
    (w, .error ⟨mixingMessage mochaOptions.ui ui key alternate⟩)
  else if w._mochaIsSetup then
    (w, .ok ())
  else
    let options : MochaOptions := { mochaOptions with ui := some ui }
    let effect := mocha.setup options w.window
    let w1 : World :=
      { w with
        mochaOptions := effect.mochaOptions
        window := effect.window
        setupCalls := w.setupCalls ++ [options] }
    match effect.thrown with
    | some e => (w1, .error e)
    | none => (w1, .ok ())

/-! ## `stubInterfaces` and `wrappedMochaFunction` (lines 49-61) -/

/-- The message of line 55. -/
def expectedMessage (key : String) : String :=
  "Expected mocha.setup to define " ++ key

/-- Lines 54-56 of `wrappedMochaFunction`: the check made once `_setupMocha`
has returned; it yields the function to forward to. -/
def wrapperCheck (self : JSFun) (key : String) (w : World) : Except JSError JSFun :=
  match w.window key with
  | none => .error ⟨expectedMessage key⟩
  | some f => if f = self then .error ⟨expectedMessage key⟩ else .ok f

/-- What a call leaves behind: the world, and the value returned or the error
thrown. -/
abbrev Outcome := World × Except JSError JSVal

/-- Lines 54-57 of `wrappedMochaFunction`: the check, then
`window[key].apply(window, arguments)`, whose value is dropped (there is no
`return`).  `apply` is how a function value is called. -/
def forwardCall (apply : JSFun → List JSVal → World → Outcome) (self : JSFun)
    (key : String) (args : List JSVal) (w1 : World) : Outcome :=
  match wrapperCheck self key w1 with
  | .error e => (w1, .error e)
  | .ok f =>
    match apply f args w1 with
    | (w2, .error e) => (w2, .error e)
    | (w2, .ok _) => (w2, .ok .undefined)

/-- The body of the closure `wrappedMochaFunction` made for `ui` and `key` by
run `gen` of `stubInterfaces` (lines 53-57). -/
def wrappedMochaFunction (mocha : Framework)
    (apply : JSFun → List JSVal → World → Outcome) (gen : Nat) (ui key : String)
    (args : List JSVal) (w : World) : Outcome :=
  match _setupMocha mocha ui key (alternateOf ui key) w with
  | (w1, .error e) => (w1, .error e)
  | (w1, .ok _) => forwardCall apply (.wrapped gen ui key) key args w1

/-- Calling a function value with an argument list, with `depth` stack frames
left: a framework function, or a closure of `stubInterfaces`. -/
def invoke (mocha : Framework) : Nat → JSFun → List JSVal → World → Outcome
  | 0, _, _, w => (w, .error ⟨"Maximum call stack size exceeded"⟩)
  | _ + 1, .native id, args, w =>
    ({ w with realCalls := w.realCalls ++ [(id, args)] }, mocha.call id args)
  | depth + 1, .wrapped gen ui key, args, w =>
    wrappedMochaFunction mocha (invoke mocha depth) gen ui key args w

/-- The inner `forEach` of `stubInterfaces`: one closure per key of one
interface. -/
def stubStyle (gen : Nat) (ui : String) (defs : StyleDefinition) (window : Window) : Window :=
  defs.foldl
    (fun win entry => Function.update win entry.1 (some (.wrapped gen ui entry.1)))
    window

/-- The function `stubInterfaces()`. -/
def stubInterfaces (w : World) : World :=
  { w with
    window := MOCHA_EXPORTS.foldl (fun win entry => stubStyle w.closures entry.1 entry.2 win)
      w.window
    closures := w.closures + 1 }

/-- Calling the global `name(args)`: a ReferenceError-like failure when the
slot is absent, otherwise a call of the function in the slot. -/
def callGlobal (mocha : Framework) (depth : Nat) (name : String) (args : List JSVal)
    (w : World) : Outcome :=
  match w.window name with
  | none => (w, .error ⟨name ++ " is not defined"⟩)
  | some f => invoke mocha depth f args w

/-- The error-or-value results compare by decision procedure. -/
instance : DecidableEq (Except JSError JSVal) := fun a b =>
  match a, b with
  | .ok x, .ok y => if h : x = y then isTrue (by rw [h]) else isFalse (fun e => h (by cases e; rfl))
  | .error x, .error y =>
    if h : x = y then isTrue (by rw [h]) else isFalse (fun e => h (by cases e; rfl))
  | .ok _, .error _ => isFalse (fun e => by cases e)
  | .error _, .ok _ => isFalse (fun e => by cases e)

/-- The state of a freshly loaded module on a page with the given globals:
no style recorded, `_mochaIsSetup` false (line 91), nothing called yet. -/
def freshWorld (window : Window) : World :=
  { mochaOptions := { ui := none }
    _mochaIsSetup := false
    window := window
    closures := 0
    setupCalls := []
    realCalls := [] }

/-- A well-behaved framework for examples: `setup` installs a function for
every method of the interface named by `ui` (numbered by the position of the
name in `declarationNames`) and touches nothing else; every framework function
returns the number 7. -/
def demoMocha : Framework where
  setup := fun options window =>
    { mochaOptions := options
      window := fun name =>
        match options.ui with
        | none => window name
        | some ui =>
          match getProp MOCHA_EXPORTS ui with
          | none => window name
          | some defs =>
            if name ∈ defs.map Prod.fst then some (.native (declarationNames.indexOf name))
            else window name
      thrown := none }
  call := fun _ _ => .ok (.num 7)

/-- A page with no globals. -/
def emptyWindow : Window := fun _ => none

/-! ## `extendInterfaces` (lines 68-88) -/

/-- A declaration context: property name to value, `none` when absent. -/
abbrev Context := String → Option JSVal

/-- A helper factory: receives the context and the interface name, returns the
helper. -/
abbrev HelperFactory := Context → String → JSVal

/-- Event listeners on a suite: one registered by the framework itself (what
it does to the context, given the file), or the closure of lines 80-85, which
captures `helperName`, `helperFactory` and `interfaceName`. -/
inductive Listener where
  | framework (run : Context → String → Context)
  | helper (helperName : String) (helperFactory : HelperFactory) (interfaceName : String)

/-- The body of a listener fired with `(context, file, mocha)`; for the helper
listener, line 84: `context[helperName] = helperFactory(context, interfaceName)`. -/
def Listener.fire : Listener → Context → String → Context
  | .framework run, context, file => run context file
  | .helper helperName helperFactory interfaceName, context, _ =>
    Function.update context helperName (some (helperFactory context interfaceName))

/-- A suite object, as far as this module sees it: its listeners with the
event each listens to, in registration order. -/
structure Suite where
  listeners : List (String × Listener)

/-- Modelled from the spec: `suite.on(event, listener)` of the framework's
event emitter, used at line 80; the listener is added after those already
registered and stays registered. -/
def Suite.on (suite : Suite) (event : String) (listener : Listener) : Suite :=
  { listeners := suite.listeners ++ [(event, listener)] }

/-- Modelled from the spec: the framework firing `event` for a file being
loaded; the listeners of that event run synchronously, in registration order,
on the file's context. -/
def Suite.emit (suite : Suite) (event : String) (context : Context) (file : String) :
    Context :=
  suite.listeners.foldl
    (fun c entry => if entry.1 = event then entry.2.fire c file else c) context

/-- Interface installers: one supplied by the framework, or the function
assigned at line 76, which captures `originalInterface`, `helperName`,
`helperFactory` and `interfaceName`. -/
inductive Installer where
  | original (id : Nat)
  | extended (originalInterface : Installer) (helperName : String)
      (helperFactory : HelperFactory) (interfaceName : String)

/-- Running an installer on a suite.  `install` is the behaviour of the
framework's own installers.  The result is the suite left behind and the
calls made to framework installers, each with the suite it received.  For the
function of line 76: first the original (line 78), then `suite.on` (line 80). -/
def runInstaller (install : Nat → Suite → Suite) : Installer → Suite →
    Suite × List (Nat × Suite)
  | .original id, suite => (install id suite, [(id, suite)])
  | .extended originalInterface helperName helperFactory interfaceName, suite =>
    let r := runInstaller install originalInterface suite
    (r.1.on "pre-require" (.helper helperName helperFactory interfaceName), r.2)

/-- The object `window.Mocha`, as far as this module sees it. -/
structure MochaClass where
  interfaces : List (String × Installer)

/-- The function `extendInterfaces(helperName, helperFactory)`.  A key of
`Object.keys` always has a value, so the first branch is never taken. -/
def extendInterfaces (helperName : String) (helperFactory : HelperFactory)
    (Mocha : MochaClass) : MochaClass :=
  { interfaces :=
      (objectKeys Mocha.interfaces).foldl
        (fun interfaces interfaceName =>
          match getProp interfaces interfaceName with
          | none => interfaces
          | some originalInterface =>
            setProp interfaces interfaceName
              (.extended originalInterface helperName helperFactory interfaceName))
        Mocha.interfaces }

/-! ## Vocabulary of the statements -/

/-- The framework's `mocha.setup` never throws. -/
def SetupNeverThrows (mocha : Framework) : Prop :=
  ∀ options window, (mocha.setup options window).thrown = none

/-- The framework's `mocha.setup` leaves the `ui` field of the options object
as it received it. -/
def SetupKeepsUi (mocha : Framework) : Prop :=
  ∀ options window, (mocha.setup options window).mochaOptions.ui = options.ui

/-- The framework's `mocha.setup` installs the real functions of the style it
is given: it does not throw, leaves the options object alone, puts a function
of its own in the slot of every method of that style and leaves every other
slot as it was. -/
def InstallsStyle (mocha : Framework) : Prop :=
  ∀ options window,
    (mocha.setup options window).thrown = none ∧
    (mocha.setup options window).mochaOptions = options ∧
    ∀ ui defs, options.ui = some ui → (ui, defs) ∈ MOCHA_EXPORTS →
      (∀ key, key ∈ defs.map Prod.fst →
        ∃ id, (mocha.setup options window).window key = some (.native id)) ∧
      (∀ name, name ∉ defs.map Prod.fst →
        (mocha.setup options window).window name = window name)

/-- A sequence of calls of function values, one after the other, each with
`depth` stack frames; the world left behind by the last. -/
def runCalls (mocha : Framework) (depth : Nat) : List (JSFun × List JSVal) → World → World
  | [], w => w
  | call :: rest, w => runCalls mocha depth rest (invoke mocha depth call.1 call.2 w).1

/-- The message of a style conflict in the words of the specification:
"Mixing <otherStyle> and <style> styles is not supported. You called <name>.
Did you mean <analogueName>?".  Kept apart from `mixingMessage`, which is the
message the code builds. -/
def specifiedMixingMessage (otherStyle style name analogueName : String) : String :=
  "Mixing " ++ otherStyle ++ " and " ++ style ++ " styles is not supported. " ++
    "You called " ++ name ++ ". Did you mean " ++ analogueName ++ "?"

/-- The world of the examples: a fresh module on an empty page, after one run
of `stubInterfaces`. -/
def stubbedWorld : World := stubInterfaces (freshWorld emptyWindow)

/-- The closure the first run of `stubInterfaces` puts in the slot `suite`. -/
def suiteStub : JSFun := .wrapped 0 "tdd" "suite"

/-- The world of the examples once TDD has been recorded as the style. -/
def tddWorld : World :=
  (_setupMocha demoMocha "tdd" "suite" (alternateOf "tdd" "suite") stubbedWorld).1

/-- A factory for examples: the helper is the function numbered by the length
of the interface name. -/
def demoFactory : HelperFactory := fun _ interfaceName => .fn interfaceName.length

/-- A second factory for examples: the helper is a fixed number. -/
def demoFactory2 : HelperFactory := fun _ _ => .num 2

/-- Framework installers for examples: each registers one listener of its own
on `pre-require`, which sets `describe` in the context. -/
def demoInstall : Nat → Suite → Suite := fun id suite =>
  suite.on "pre-require"
    (.framework (fun context _ => Function.update context "describe" (some (.fn id))))

/-- A `window.Mocha` for examples, with the two interfaces of Mocha. -/
def demoMochaClass : MochaClass :=
  { interfaces := [("bdd", .original 0), ("tdd", .original 1)] }

/-- An empty declaration context. -/
def emptyContext : Context := fun _ => none

/-! ## Basic facts -/

theorem getProp_of_mem {α : Type} (obj : List (String × α)) (name : String) (value : α)
    (hnodup : (obj.map Prod.fst).Nodup) (hmem : (name, value) ∈ obj) :
    getProp obj name = some value := by
  induction obj with
  | nil => simp at hmem
  | cons p rest ih =>
    obtain ⟨k, v⟩ := p
    simp only [List.map_cons, List.nodup_cons] at hnodup
    simp only [List.mem_cons] at hmem
    rcases hmem with h | h
    · cases h
      simp [getProp]
    · have hne : k ≠ name := by
        intro hk
        apply hnodup.1
        rw [hk]
        exact List.mem_map_of_mem Prod.fst h
      simp [getProp, hne, ih hnodup.2 h]

theorem setupMocha_realCalls (mocha : Framework) (ui key alternate : String) (w : World) :
    (_setupMocha mocha ui key alternate w).1.realCalls = w.realCalls := by
  unfold _setupMocha
  simp only
  split
  · rfl
  · split
    · rfl
    · split <;> rfl

theorem setupMocha_flag (mocha : Framework) (ui key alternate : String) (w : World) :
    (_setupMocha mocha ui key alternate w).1._mochaIsSetup = w._mochaIsSetup := by
  unfold _setupMocha
  simp only
  split
  · rfl
  · split
    · rfl
    · split <;> rfl

theorem truthy_iff (o : Option String) : truthy o = true ↔ ∃ s, o = some s ∧ s ≠ "" := by
  cases o with
  | none => simp [truthy]
  | some s => simp [truthy]

/-- The guard of line 100 holds exactly when a style is recorded, non-empty,
and different from the requested one. -/
theorem conflict_iff (w : World) (ui : String) :
    (truthy (config.get w).ui && (config.get w).ui != some ui) = true ↔
      ∃ s, w.mochaOptions.ui = some s ∧ s ≠ "" ∧ s ≠ ui := by
  simp only [config.get, Bool.and_eq_true, truthy_iff, bne_iff_ne, ne_eq]
  constructor
  · rintro ⟨⟨s, hs, hne⟩, hdiff⟩
    refine ⟨s, hs, hne, ?_⟩
    intro h
    apply hdiff
    rw [hs, h]
  · rintro ⟨s, hs, hne, hdiff⟩
    refine ⟨⟨s, hs, hne⟩, ?_⟩
    rw [hs]
    intro h
    apply hdiff
    exact Option.some.inj h

theorem invoke_wrapped (mocha : Framework) (depth gen : Nat) (ui key : String)
    (args : List JSVal) (w : World) :
    invoke mocha (depth + 1) (.wrapped gen ui key) args w =
      wrappedMochaFunction mocha (invoke mocha depth) gen ui key args w := by
  rw [invoke]

theorem invoke_native (mocha : Framework) (depth id : Nat) (args : List JSVal) (w : World) :
    invoke mocha (depth + 1) (.native id) args w =
      ({ w with realCalls := w.realCalls ++ [(id, args)] }, mocha.call id args) := by
  rw [invoke]

theorem demoMocha_never_throws : SetupNeverThrows demoMocha := by
  intro options window
  rfl

/-! ## `_setupMocha` -/

/-- C1: provided `mocha.setup` does not throw, `_setupMocha(ui, key, alternate)`
throws exactly when `mochaOptions.ui` is set, non-empty and different from `ui`,
whatever the value of `_mochaIsSetup`; when it throws the world is untouched
(no call of `mocha.setup`, same `ui`, same flag) and the error is the mixing
message; a request for the recorded style does not throw. -/
theorem setupMocha_throws_iff (mocha : Framework) (hsetup : SetupNeverThrows mocha)
    (ui key alternate : String) (w : World) :
    ((∃ e, (_setupMocha mocha ui key alternate w).2 = .error e) ↔
        ∃ s, w.mochaOptions.ui = some s ∧ s ≠ "" ∧ s ≠ ui) ∧
    (∀ e, (_setupMocha mocha ui key alternate w).2 = .error e →
        (_setupMocha mocha ui key alternate w).1 = w ∧
        (_setupMocha mocha ui key alternate w).1.setupCalls = w.setupCalls ∧
        (_setupMocha mocha ui key alternate w).1.mochaOptions.ui = w.mochaOptions.ui ∧
        (_setupMocha mocha ui key alternate w).1._mochaIsSetup = w._mochaIsSetup ∧
        e = ⟨mixingMessage w.mochaOptions.ui ui key alternate⟩) ∧
    (w.mochaOptions.ui = some ui → (_setupMocha mocha ui key alternate w).2 = .ok ()) := by
  by_cases hc : (truthy (config.get w).ui && (config.get w).ui != some ui) = true
  · have hrun : _setupMocha mocha ui key alternate w =
        (w, .error ⟨mixingMessage w.mochaOptions.ui ui key alternate⟩) := by
      unfold _setupMocha
      simp only [hc, if_true]
      rfl
    refine ⟨?_, ?_, ?_⟩
    · rw [hrun]
      constructor
      · intro _
        exact (conflict_iff w ui).1 hc
      · intro _
        exact ⟨_, rfl⟩
    · intro e he
      rw [hrun] at he ⊢
      refine ⟨rfl, rfl, rfl, rfl, ?_⟩
      injection he with he
      exact he.symm
    · intro hui
      obtain ⟨s, hs, _, hdiff⟩ := (conflict_iff w ui).1 hc
      rw [hui] at hs
      exact absurd (Option.some.inj hs).symm hdiff
  · have hok : (_setupMocha mocha ui key alternate w).2 = .ok () := by
      unfold _setupMocha
      simp only [hc]
      by_cases hflag : w._mochaIsSetup = true
      · simp [hflag]
      · simp only [hflag]
        simp [hsetup _ _]
    refine ⟨?_, ?_, ?_⟩
    · constructor
      · rintro ⟨e, he⟩
        rw [hok] at he
        cases he
      · intro h
        exact absurd ((conflict_iff w ui).2 h) hc
    · intro e he
      rw [hok] at he
      cases he
    · intro _
      exact hok

theorem setupMocha_throws_iff_witness :
    SetupNeverThrows demoMocha ∧
    ((∃ e, (_setupMocha demoMocha "bdd" "describe" "\"suite\"" tddWorld).2 = .error e) ↔
        ∃ s, tddWorld.mochaOptions.ui = some s ∧ s ≠ "" ∧ s ≠ "bdd") :=
  ⟨demoMocha_never_throws,
    (setupMocha_throws_iff demoMocha demoMocha_never_throws "bdd" "describe" "\"suite\""
      tddWorld).1⟩

/-! ## `wrappedMochaFunction` -/

theorem wrapperCheck_error_iff (self : JSFun) (key : String) (w : World) :
    (∃ e, wrapperCheck self key w = .error e) ↔
      (w.window key = none ∨ w.window key = some self) := by
  unfold wrapperCheck
  cases hslot : w.window key with
  | none => simp
  | some f =>
    by_cases hf : f = self
    · simp [hf]
    · simp [hf]

theorem wrapperCheck_violated (self : JSFun) (key : String) (w : World)
    (h : w.window key = none ∨ w.window key = some self) :
    wrapperCheck self key w = .error ⟨expectedMessage key⟩ := by
  unfold wrapperCheck
  rcases h with h | h
  · simp [h]
  · simp [h]

theorem wrapperCheck_ok (self f : JSFun) (key : String) (w : World)
    (hslot : w.window key = some f) (hne : f ≠ self) :
    wrapperCheck self key w = .ok f := by
  unfold wrapperCheck
  simp [hslot, hne]

theorem invoke_after_setup (mocha : Framework) (depth gen : Nat) (ui key : String)
    (args : List JSVal) (w w1 : World)
    (hsetup : _setupMocha mocha ui key (alternateOf ui key) w = (w1, .ok ())) :
    invoke mocha (depth + 1) (.wrapped gen ui key) args w =
      forwardCall (invoke mocha depth) (.wrapped gen ui key) key args w1 := by
  rw [invoke_wrapped]
  unfold wrappedMochaFunction
  rw [hsetup]

theorem setupMocha_realCalls_of_eq (mocha : Framework) (ui key alternate : String)
    (w w1 : World) (r : Except JSError Unit)
    (hsetup : _setupMocha mocha ui key alternate w = (w1, r)) :
    w1.realCalls = w.realCalls := by
  have h := setupMocha_realCalls mocha ui key alternate w
  rw [hsetup] at h
  exact h

/-- C7: once `_setupMocha` has returned normally inside the wrapper for `key`,
the wrapper's own check (lines 54-56) throws exactly when the slot of `key` is
absent or still holds this very wrapper; then the call ends with the error
"Expected mocha.setup to define <key>" and no framework function has been
called; otherwise the call is forwarded to the function now in the slot. -/
theorem wrapper_contract_violation (mocha : Framework) (depth gen : Nat) (ui key : String)
    (args : List JSVal) (w w1 : World)
    (hsetup : _setupMocha mocha ui key (alternateOf ui key) w = (w1, .ok ())) :
    ((∃ e, wrapperCheck (.wrapped gen ui key) key w1 = .error e) ↔
        (w1.window key = none ∨ w1.window key = some (.wrapped gen ui key))) ∧
    ((w1.window key = none ∨ w1.window key = some (.wrapped gen ui key)) →
        invoke mocha (depth + 1) (.wrapped gen ui key) args w =
          (w1, .error ⟨"Expected mocha.setup to define " ++ key⟩) ∧
        w1.realCalls = w.realCalls) ∧
    (∀ f, w1.window key = some f → f ≠ .wrapped gen ui key →
        invoke mocha (depth + 1) (.wrapped gen ui key) args w =
          match invoke mocha depth f args w1 with
          | (w2, .error e) => (w2, .error e)
          | (w2, .ok _) => (w2, .ok .undefined)) := by
  refine ⟨wrapperCheck_error_iff _ _ _, ?_, ?_⟩
  · intro h
    refine ⟨?_, setupMocha_realCalls_of_eq mocha ui key _ w w1 _ hsetup⟩
    rw [invoke_after_setup mocha depth gen ui key args w w1 hsetup]
    unfold forwardCall
    rw [wrapperCheck_violated _ _ _ h]
    rfl
  · intro f hslot hne
    rw [invoke_after_setup mocha depth gen ui key args w w1 hsetup]
    unfold forwardCall
    rw [wrapperCheck_ok _ f _ _ hslot hne]

theorem wrapper_contract_violation_witness :
    _setupMocha demoMocha "tdd" "suite" (alternateOf "tdd" "suite") stubbedWorld =
        (tddWorld, .ok ()) ∧
    ((∃ e, wrapperCheck suiteStub "suite" tddWorld = .error e) ↔
        (tddWorld.window "suite" = none ∨ tddWorld.window "suite" = some suiteStub)) :=
  ⟨rfl, (wrapper_contract_violation demoMocha 1 0 "tdd" "suite" [] stubbedWorld tddWorld rfl).1⟩

/-- C6 (as the code has it): when setup has put a framework function in the
slot of `key`, calling the wrapper calls that function exactly once, with
exactly the arguments given; the wrapper then returns `undefined`, whatever the
function returned, and an error thrown by the function is thrown on. -/
theorem wrapper_forwards_drops_result (mocha : Framework) (depth gen id : Nat)
    (ui key : String) (args : List JSVal) (w w1 : World)
    (hsetup : _setupMocha mocha ui key (alternateOf ui key) w = (w1, .ok ()))
    (hslot : w1.window key = some (.native id)) :
    invoke mocha (depth + 2) (.wrapped gen ui key) args w =
      ({ w1 with realCalls := w.realCalls ++ [(id, args)] },
        match mocha.call id args with
        | .ok _ => .ok .undefined
        | .error e => .error e) := by
  rw [invoke_after_setup mocha (depth + 1) gen ui key args w w1 hsetup]
  unfold forwardCall
  rw [wrapperCheck_ok _ (.native id) _ _ hslot (by simp)]
  simp only []
  rw [invoke_native, setupMocha_realCalls_of_eq mocha ui key _ w w1 _ hsetup]
  cases mocha.call id args <;> rfl

theorem wrapper_forwards_drops_result_witness :
    _setupMocha demoMocha "tdd" "suite" (alternateOf "tdd" "suite") stubbedWorld =
        (tddWorld, .ok ()) ∧
    tddWorld.window "suite" = some (.native 4) ∧
    (invoke demoMocha 2 suiteStub [.str "x"] stubbedWorld).2 = .ok .undefined ∧
    (invoke demoMocha 2 suiteStub [.str "x"] stubbedWorld).1.realCalls = [(4, [.str "x"])] := by
  have h := wrapper_forwards_drops_result demoMocha 0 0 4 "tdd" "suite" [.str "x"]
    stubbedWorld tddWorld rfl rfl
  refine ⟨rfl, rfl, ?_, ?_⟩
  · rw [suiteStub, h]
    rfl
  · rw [suiteStub, h]
    rfl

/-- C6, the claim as stated fails: with a framework whose `suite` returns 7,
the wrapper calls it once with the argument given and returns `undefined`, not
the 7 the real function returned. -/
theorem wrapper_result_counterexample :
    (invoke demoMocha 2 suiteStub [.str "x"] stubbedWorld).1.realCalls = [(4, [.str "x"])] ∧
    demoMocha.call 4 [.str "x"] = .ok (.num 7) ∧
    (invoke demoMocha 2 suiteStub [.str "x"] stubbedWorld).2 = .ok .undefined ∧
    (invoke demoMocha 2 suiteStub [.str "x"] stubbedWorld).2 ≠ demoMocha.call 4 [.str "x"] := by
  decide

/-! ## `MOCHA_EXPORTS` and `stubInterfaces` -/

theorem exports_cases (ui : String) (defs : StyleDefinition)
    (hstyle : (ui, defs) ∈ MOCHA_EXPORTS) :
    (ui = "tdd" ∧ defs = MOCHA_EXPORTS_tdd) ∨ (ui = "bdd" ∧ defs = MOCHA_EXPORTS_bdd) := by
  simpa [MOCHA_EXPORTS] using hstyle

theorem tdd_names_nodup : (MOCHA_EXPORTS_tdd.map Prod.fst).Nodup := by decide

theorem bdd_names_nodup : (MOCHA_EXPORTS_bdd.map Prod.fst).Nodup := by decide

theorem tdd_bdd_disjoint :
    ∀ name ∈ MOCHA_EXPORTS_tdd.map Prod.fst, name ∉ MOCHA_EXPORTS_bdd.map Prod.fst := by
  decide

theorem declarationNames_eq :
    declarationNames = MOCHA_EXPORTS_tdd.map Prod.fst ++ MOCHA_EXPORTS_bdd.map Prod.fst := by
  simp [declarationNames, MOCHA_EXPORTS]

theorem style_ne_empty (ui : String) (defs : StyleDefinition)
    (hstyle : (ui, defs) ∈ MOCHA_EXPORTS) : ui ≠ "" := by
  rcases exports_cases ui defs hstyle with ⟨h, _⟩ | ⟨h, _⟩ <;> rw [h] <;> decide

theorem alternateOf_eq (ui : String) (defs : StyleDefinition) (key alternate : String)
    (hstyle : (ui, defs) ∈ MOCHA_EXPORTS) (hkey : (key, alternate) ∈ defs) :
    alternateOf ui key = alternate := by
  rcases exports_cases ui defs hstyle with ⟨h1, h2⟩ | ⟨h1, h2⟩
  · subst h1 h2
    have hget : getProp MOCHA_EXPORTS "tdd" = some MOCHA_EXPORTS_tdd := by
      simp [MOCHA_EXPORTS, getProp]
    unfold alternateOf
    rw [hget]
    simp only []
    rw [getProp_of_mem _ _ _ tdd_names_nodup hkey]
  · subst h1 h2
    have hget : getProp MOCHA_EXPORTS "bdd" = some MOCHA_EXPORTS_bdd := by
      simp [MOCHA_EXPORTS, getProp]
    unfold alternateOf
    rw [hget]
    simp only []
    rw [getProp_of_mem _ _ _ bdd_names_nodup hkey]

theorem other_style_disjoint (sa sb : String) (da db : StyleDefinition)
    (ha : (sa, da) ∈ MOCHA_EXPORTS) (hb : (sb, db) ∈ MOCHA_EXPORTS) (hne : sa ≠ sb)
    (name : String) (hname : name ∈ da.map Prod.fst) : name ∉ db.map Prod.fst := by
  rcases exports_cases sa da ha with ⟨a1, a2⟩ | ⟨a1, a2⟩ <;>
    rcases exports_cases sb db hb with ⟨b1, b2⟩ | ⟨b1, b2⟩
  · exact absurd (a1.trans b1.symm) hne
  · subst a2 b2
    exact tdd_bdd_disjoint name hname
  · subst a2 b2
    intro hin
    exact tdd_bdd_disjoint name hin hname
  · exact absurd (a1.trans b1.symm) hne

theorem stubStyle_apply (gen : Nat) (ui : String) (defs : StyleDefinition) (window : Window)
    (name : String) :
    stubStyle gen ui defs window name =
      if name ∈ defs.map Prod.fst then some (.wrapped gen ui name) else window name := by
  induction defs generalizing window with
  | nil => simp [stubStyle]
  | cons entry rest ih =>
    have hstep : stubStyle gen ui (entry :: rest) window =
        stubStyle gen ui rest
          (Function.update window entry.1 (some (.wrapped gen ui entry.1))) := rfl
    rw [hstep, ih]
    by_cases hrest : name ∈ rest.map Prod.fst
    · simp [hrest]
    · by_cases hname : name = entry.1
      · subst hname
        simp
      · simp [hrest, hname, Function.update_noteq hname]

theorem stubInterfaces_window (w : World) :
    (stubInterfaces w).window =
      stubStyle w.closures "bdd" MOCHA_EXPORTS_bdd
        (stubStyle w.closures "tdd" MOCHA_EXPORTS_tdd w.window) := rfl

theorem stubInterfaces_closures (w : World) :
    (stubInterfaces w).closures = w.closures + 1 := rfl

theorem stubInterfaces_slot (w : World) (ui : String) (defs : StyleDefinition) (key : String)
    (hstyle : (ui, defs) ∈ MOCHA_EXPORTS) (hkey : key ∈ defs.map Prod.fst) :
    (stubInterfaces w).window key = some (.wrapped w.closures ui key) := by
  rw [stubInterfaces_window]
  rcases exports_cases ui defs hstyle with ⟨h1, h2⟩ | ⟨h1, h2⟩
  · subst h1 h2
    rw [stubStyle_apply, if_neg (tdd_bdd_disjoint key hkey), stubStyle_apply, if_pos hkey]
  · subst h1 h2
    rw [stubStyle_apply, if_pos hkey]

theorem stubInterfaces_other_slot (w : World) (name : String)
    (hname : name ∉ declarationNames) : (stubInterfaces w).window name = w.window name := by
  rw [declarationNames_eq, List.mem_append, not_or] at hname
  rw [stubInterfaces_window, stubStyle_apply, if_neg hname.2, stubStyle_apply, if_neg hname.1]

theorem mem_names_of_mem (defs : StyleDefinition) (key alternate : String)
    (hkey : (key, alternate) ∈ defs) : key ∈ defs.map Prod.fst :=
  List.mem_map_of_mem Prod.fst hkey

/-- C5: after `stubInterfaces()`, the slot of every method name of every style
of `MOCHA_EXPORTS` holds a closure whose call starts with
`_setupMocha(style, name, analog)` for that name's own style and analog and,
when that returns, goes on with the check and the forwarding; the styles have
6 and 12 names, 18 in all, no name in both, and every other slot is left as it
was. -/
theorem stubInterfaces_installs (w : World) (ui : String) (defs : StyleDefinition)
    (key alternate : String) (hstyle : (ui, defs) ∈ MOCHA_EXPORTS)
    (hkey : (key, alternate) ∈ defs) :
    (stubInterfaces w).window key = some (.wrapped w.closures ui key) ∧
    (∀ mocha depth args w1,
      invoke mocha (depth + 1) (.wrapped w.closures ui key) args w1 =
        match _setupMocha mocha ui key alternate w1 with
        | (w2, .error e) => (w2, .error e)
        | (w2, .ok _) =>
          forwardCall (invoke mocha depth) (.wrapped w.closures ui key) key args w2) ∧
    (∀ name, name ∉ declarationNames → (stubInterfaces w).window name = w.window name) ∧
    (∀ name, ¬ (name ∈ MOCHA_EXPORTS_tdd.map Prod.fst ∧ name ∈ MOCHA_EXPORTS_bdd.map Prod.fst)) ∧
    MOCHA_EXPORTS = [("tdd", MOCHA_EXPORTS_tdd), ("bdd", MOCHA_EXPORTS_bdd)] ∧
    MOCHA_EXPORTS_tdd.length = 6 ∧ MOCHA_EXPORTS_bdd.length = 12 ∧
    declarationNames.length = 18 ∧ declarationNames.Nodup := by
  refine ⟨stubInterfaces_slot w ui defs key hstyle (mem_names_of_mem defs key alternate hkey),
    ?_, stubInterfaces_other_slot w, ?_, rfl, rfl, rfl, by decide, by decide⟩
  · intro mocha depth args w1
    rw [invoke_wrapped]
    unfold wrappedMochaFunction
    rw [alternateOf_eq ui defs key alternate hstyle hkey]
  · rintro name ⟨h1, h2⟩
    exact tdd_bdd_disjoint name h1 h2

theorem stubInterfaces_installs_witness :
    ("bdd", MOCHA_EXPORTS_bdd) ∈ MOCHA_EXPORTS ∧
    ("describe", "\"suite\"") ∈ MOCHA_EXPORTS_bdd ∧
    (stubInterfaces (freshWorld emptyWindow)).window "describe" =
      some (.wrapped 0 "bdd" "describe") :=
  ⟨by decide, by decide,
    (stubInterfaces_installs (freshWorld emptyWindow) "bdd" MOCHA_EXPORTS_bdd "describe"
      "\"suite\"" (by decide) (by decide)).1⟩

/-- C10 (as the code has it): `stubInterfaces()` never looks at what a slot
holds.  A method slot that holds the framework's real function holds a new
closure afterwards, so the real function is gone from the slot; the closure
captures only the style and the name, not the previous occupant, and a further
run replaces it by the closure of that run. -/
theorem stubInterfaces_overwrites (w : World) (ui : String) (defs : StyleDefinition)
    (key alternate : String) (id : Nat) (hstyle : (ui, defs) ∈ MOCHA_EXPORTS)
    (hkey : (key, alternate) ∈ defs) (hreal : w.window key = some (.native id)) :
    (stubInterfaces w).window key = some (.wrapped w.closures ui key) ∧
    (stubInterfaces w).window key ≠ w.window key ∧
    (stubInterfaces (stubInterfaces w)).window key =
      some (.wrapped (w.closures + 1) ui key) := by
  have hname := mem_names_of_mem defs key alternate hkey
  refine ⟨stubInterfaces_slot w ui defs key hstyle hname, ?_, ?_⟩
  · rw [stubInterfaces_slot w ui defs key hstyle hname, hreal]
    simp
  · rw [stubInterfaces_slot (stubInterfaces w) ui defs key hstyle hname, stubInterfaces_closures]

theorem stubInterfaces_overwrites_witness :
    ("tdd", MOCHA_EXPORTS_tdd) ∈ MOCHA_EXPORTS ∧
    ("suite", "\"describe\" or \"context\"") ∈ MOCHA_EXPORTS_tdd ∧
    tddWorld.window "suite" = some (.native 4) ∧
    (stubInterfaces tddWorld).window "suite" = some (.wrapped 1 "tdd" "suite") :=
  ⟨by decide, by decide, rfl,
    (stubInterfaces_overwrites tddWorld "tdd" MOCHA_EXPORTS_tdd "suite"
      "\"describe\" or \"context\"" 4 (by decide) (by decide) rfl).1⟩

/-- C10, the claim as stated fails: after `suite()` has made the framework put
its real `suite` in the slot, a second `stubInterfaces()` puts a closure there
again. -/
theorem stubInterfaces_rewraps_counterexample :
    (callGlobal demoMocha 2 "suite" [] stubbedWorld).1.window "suite" = some (.native 4) ∧
    (stubInterfaces (callGlobal demoMocha 2 "suite" [] stubbedWorld).1).window "suite" =
      some (.wrapped 1 "tdd" "suite") ∧
    (stubInterfaces (callGlobal demoMocha 2 "suite" [] stubbedWorld).1).window "suite" ≠
      some (.native 4) := by
  decide

/-! ## Sequences of calls -/

theorem invoke_native_fields (mocha : Framework) (depth id : Nat) (args : List JSVal)
    (w : World) :
    (invoke mocha depth (.native id) args w).1.mochaOptions = w.mochaOptions ∧
    (invoke mocha depth (.native id) args w).1.window = w.window ∧
    (invoke mocha depth (.native id) args w).1._mochaIsSetup = w._mochaIsSetup := by
  cases depth with
  | zero => exact ⟨rfl, rfl, rfl⟩
  | succ d => exact ⟨rfl, rfl, rfl⟩

theorem invoke_conflict (mocha : Framework) (depth gen : Nat) (ui key s : String)
    (args : List JSVal) (w : World) (hui : w.mochaOptions.ui = some s) (hs : s ≠ "")
    (hdiff : s ≠ ui) :
    invoke mocha (depth + 1) (.wrapped gen ui key) args w =
      (w, .error ⟨mixingMessage (some s) ui key (alternateOf ui key)⟩) := by
  have hc : (truthy (config.get w).ui && (config.get w).ui != some ui) = true :=
    (conflict_iff w ui).2 ⟨s, hui, hs, hdiff⟩
  have hrun : _setupMocha mocha ui key (alternateOf ui key) w =
      (w, .error ⟨mixingMessage (some s) ui key (alternateOf ui key)⟩) := by
    unfold _setupMocha
    simp only [hc, if_true]
    rw [← hui]
    rfl
  rw [invoke_wrapped]
  unfold wrappedMochaFunction
  rw [hrun]

theorem setupMocha_fresh (mocha : Framework) (ui key alternate : String) (w : World)
    (hui : w.mochaOptions.ui = none) (hflag : w._mochaIsSetup = false) :
    _setupMocha mocha ui key alternate w =
      ({ w with
          mochaOptions := (mocha.setup { ui := some ui } w.window).mochaOptions
          window := (mocha.setup { ui := some ui } w.window).window
          setupCalls := w.setupCalls ++ [{ ui := some ui }] },
        match (mocha.setup { ui := some ui } w.window).thrown with
        | some e => .error e
        | none => .ok ()) := by
  unfold _setupMocha
  simp only [config.get, hui, truthy, Bool.false_and, hflag]
  cases (mocha.setup { ui := some ui } w.window).thrown <;> rfl

/-- The first call on a fresh world, with a framework that installs the style
it is given: the style is recorded and the slots of the other names are not
touched. -/
theorem first_call_records (mocha : Framework) (hmocha : InstallsStyle mocha)
    (depth gen : Nat) (ui : String) (defs : StyleDefinition) (key : String)
    (args : List JSVal) (w : World) (hstyle : (ui, defs) ∈ MOCHA_EXPORTS)
    (hkey : key ∈ defs.map Prod.fst)
    (hui : w.mochaOptions.ui = none) (hflag : w._mochaIsSetup = false) :
    (invoke mocha (depth + 1) (.wrapped gen ui key) args w).1.mochaOptions.ui = some ui ∧
    ∀ name, name ∉ defs.map Prod.fst →
      (invoke mocha (depth + 1) (.wrapped gen ui key) args w).1.window name = w.window name := by
  obtain ⟨hthrown, hopts, hwin⟩ := hmocha { ui := some ui } w.window
  obtain ⟨hreal, hother⟩ := hwin ui defs rfl hstyle
  obtain ⟨id, hid⟩ := hreal key hkey
  have hrun := setupMocha_fresh mocha ui key (alternateOf ui key) w hui hflag
  rw [hthrown] at hrun
  simp only [] at hrun
  rw [invoke_after_setup mocha depth gen ui key args w _ hrun]
  unfold forwardCall
  rw [wrapperCheck_ok _ (.native id) _ _ hid (by simp)]
  simp only []
  obtain ⟨h1, h2, _⟩ := invoke_native_fields mocha depth id args
    { w with
      mochaOptions := (mocha.setup { ui := some ui } w.window).mochaOptions
      window := (mocha.setup { ui := some ui } w.window).window
      setupCalls := w.setupCalls ++ [{ ui := some ui }] }
  generalize invoke mocha depth (.native id) args
    { w with
      mochaOptions := (mocha.setup { ui := some ui } w.window).mochaOptions
      window := (mocha.setup { ui := some ui } w.window).window
      setupCalls := w.setupCalls ++ [{ ui := some ui }] } = r at h1 h2
  obtain ⟨w2, res⟩ := r
  simp only [] at h1 h2
  cases res <;>
  · simp only []
    rw [h1, h2, hopts]
    exact ⟨rfl, hother⟩

theorem demoMocha_installs : InstallsStyle demoMocha := by
  intro options window
  refine ⟨rfl, rfl, ?_⟩
  intro ui defs hui hstyle
  have hget : getProp MOCHA_EXPORTS ui = some defs := by
    rcases exports_cases ui defs hstyle with ⟨h1, h2⟩ | ⟨h1, h2⟩ <;> subst h1 h2 <;>
      simp [MOCHA_EXPORTS, getProp]
  constructor
  · intro key hkey
    refine ⟨declarationNames.indexOf key, ?_⟩
    simp only [demoMocha, hui, hget]
    rw [if_pos hkey]
  · intro name hname
    simp only [demoMocha, hui, hget]
    rw [if_neg hname]

/-- C2 (as the code has it): from a fresh state after `stubInterfaces()`, with a
framework whose setup installs the real functions of the style it is given,
calling a name `a` of one style and then a name `b` of the other makes the call
of `b` throw the error whose message is
"Mixing <style of a> and <style of b> Mocha styles is not supported. You called
"<b>". Did you mean <analog of b>?", with `b` in double quotes and the analog
as `MOCHA_EXPORTS` spells it. -/
theorem mixing_styles_throws (mocha : Framework) (hmocha : InstallsStyle mocha)
    (window : Window) (depthA depthB : Nat) (sa sb : String) (da db : StyleDefinition)
    (a altA b altB : String) (argsA argsB : List JSVal)
    (hsa : (sa, da) ∈ MOCHA_EXPORTS) (ha : (a, altA) ∈ da)
    (hsb : (sb, db) ∈ MOCHA_EXPORTS) (hb : (b, altB) ∈ db) (hne : sa ≠ sb) :
    (callGlobal mocha (depthB + 1) b argsB
        (callGlobal mocha (depthA + 1) a argsA (stubInterfaces (freshWorld window))).1).2 =
      .error ⟨"Mixing " ++ sa ++ " and " ++ sb ++ " Mocha styles is not supported. " ++
        "You called \"" ++ b ++ "\". Did you mean " ++ altB ++ "?"⟩ := by
  have hna := mem_names_of_mem da a altA ha
  have hnb := mem_names_of_mem db b altB hb
  have hslotA := stubInterfaces_slot (freshWorld window) sa da a hsa hna
  have hslotB := stubInterfaces_slot (freshWorld window) sb db b hsb hnb
  have hfirst := first_call_records mocha hmocha depthA (freshWorld window).closures sa da a
    argsA (stubInterfaces (freshWorld window)) hsa hna rfl rfl
  have hcallA : callGlobal mocha (depthA + 1) a argsA (stubInterfaces (freshWorld window)) =
      invoke mocha (depthA + 1) (.wrapped (freshWorld window).closures sa a) argsA
        (stubInterfaces (freshWorld window)) := by
    unfold callGlobal
    rw [hslotA]
  rw [hcallA]
  obtain ⟨hui, hkeep⟩ := hfirst
  have hslotB2 := hkeep b (other_style_disjoint sb sa db da hsb hsa (Ne.symm hne) b hnb)
  rw [hslotB] at hslotB2
  generalize (invoke mocha (depthA + 1) (.wrapped (freshWorld window).closures sa a) argsA
    (stubInterfaces (freshWorld window))).1 = wA at hui hslotB2
  unfold callGlobal
  rw [hslotB2]
  simp only []
  rw [invoke_conflict mocha depthB _ sb b sa argsB wA hui (style_ne_empty sa da hsa) hne,
    alternateOf_eq sb db b altB hsb hb]
  rfl

theorem mixing_styles_throws_witness :
    InstallsStyle demoMocha ∧
    ("tdd", MOCHA_EXPORTS_tdd) ∈ MOCHA_EXPORTS ∧
    ("suite", "\"describe\" or \"context\"") ∈ MOCHA_EXPORTS_tdd ∧
    ("bdd", MOCHA_EXPORTS_bdd) ∈ MOCHA_EXPORTS ∧
    ("describe", "\"suite\"") ∈ MOCHA_EXPORTS_bdd ∧
    "tdd" ≠ "bdd" ∧
    (callGlobal demoMocha 2 "describe" []
        (callGlobal demoMocha 2 "suite" [] (stubInterfaces (freshWorld emptyWindow))).1).2 =
      .error ⟨"Mixing " ++ "tdd" ++ " and " ++ "bdd" ++ " Mocha styles is not supported. " ++
        "You called \"" ++ "describe" ++ "\". Did you mean " ++ "\"suite\"" ++ "?"⟩ :=
  ⟨demoMocha_installs, by decide, by decide, by decide, by decide, by decide,
    mixing_styles_throws demoMocha demoMocha_installs emptyWindow 1 1 "tdd" "bdd"
      MOCHA_EXPORTS_tdd MOCHA_EXPORTS_bdd "suite" "\"describe\" or \"context\"" "describe"
      "\"suite\"" [] [] (by decide) (by decide) (by decide) (by decide) (by decide)⟩

/-- C2, the claim as stated fails: calling `suite` and then `describe` does
throw, but the message is not the one the claim spells out: the code writes
"Mocha styles" and puts the called name in double quotes. -/
theorem mixing_message_counterexample :
    (callGlobal demoMocha 2 "describe" []
        (callGlobal demoMocha 2 "suite" [] stubbedWorld).1).2 =
      .error ⟨"Mixing tdd and bdd Mocha styles is not supported. " ++
        "You called \"describe\". Did you mean \"suite\"?"⟩ ∧
    (callGlobal demoMocha 2 "describe" []
        (callGlobal demoMocha 2 "suite" [] stubbedWorld).1).2 ≠
      .error ⟨specifiedMixingMessage "tdd" "bdd" "describe" (alternateOf "bdd" "describe")⟩ := by
  decide

/-! ## One style, and how often setup runs -/

theorem setupMocha_keeps_ui (mocha : Framework) (hmocha : SetupKeepsUi mocha)
    (ui key alternate u : String) (w : World) (hui : w.mochaOptions.ui = some u)
    (hu : u ≠ "") : (_setupMocha mocha ui key alternate w).1.mochaOptions.ui = some u := by
  by_cases hc : (truthy (config.get w).ui && (config.get w).ui != some ui) = true
  · unfold _setupMocha
    simp only [hc, if_true]
    exact hui
  · have hsame : u = ui := by
      by_contra hdiff
      exact hc ((conflict_iff w ui).2 ⟨u, hui, hu, hdiff⟩)
    unfold _setupMocha
    simp only [hc]
    by_cases hflag : w._mochaIsSetup = true
    · simp only [hflag, if_true]
      exact hui
    · have hk := hmocha { ui := some ui } w.window
      cases hthrown : (mocha.setup { ui := some ui } w.window).thrown <;>
        simp [hflag, config.get, hthrown, hk, hsame]

theorem forwardCall_world (apply : JSFun → List JSVal → World → Outcome) (self : JSFun)
    (key : String) (args : List JSVal) (w1 : World) :
    (forwardCall apply self key args w1).1 = w1 ∨
      ∃ f, (forwardCall apply self key args w1).1 = (apply f args w1).1 := by
  unfold forwardCall
  cases wrapperCheck self key w1 with
  | error e => exact Or.inl rfl
  | ok f =>
    refine Or.inr ⟨f, ?_⟩
    simp only []
    generalize apply f args w1 = r
    obtain ⟨w2, res⟩ := r
    cases res <;> rfl

theorem wrappedMochaFunction_world (mocha : Framework)
    (apply : JSFun → List JSVal → World → Outcome) (gen : Nat) (ui key : String)
    (args : List JSVal) (w : World) :
    (wrappedMochaFunction mocha apply gen ui key args w).1 =
        (_setupMocha mocha ui key (alternateOf ui key) w).1 ∨
      ∃ f, (wrappedMochaFunction mocha apply gen ui key args w).1 =
        (apply f args (_setupMocha mocha ui key (alternateOf ui key) w).1).1 := by
  unfold wrappedMochaFunction
  generalize _setupMocha mocha ui key (alternateOf ui key) w = r
  obtain ⟨w1, res⟩ := r
  cases res with
  | error e => exact Or.inl rfl
  | ok u => exact forwardCall_world apply _ key args w1

theorem invoke_keeps_ui (mocha : Framework) (hmocha : SetupKeepsUi mocha) (u : String)
    (hu : u ≠ "") (depth : Nat) :
    ∀ (f : JSFun) (args : List JSVal) (w : World), w.mochaOptions.ui = some u →
      (invoke mocha depth f args w).1.mochaOptions.ui = some u := by
  induction depth with
  | zero =>
    intro f args w hui
    cases f <;> exact hui
  | succ d ih =>
    intro f args w hui
    cases f with
    | native id => exact hui
    | wrapped gen ui key =>
      rw [invoke_wrapped]
      have hset := setupMocha_keeps_ui mocha hmocha ui key (alternateOf ui key) u w hui hu
      rcases wrappedMochaFunction_world mocha (invoke mocha d) gen ui key args w with h | ⟨g, h⟩
      · rw [h]
        exact hset
      · rw [h]
        exact ih g args _ hset

theorem runCalls_keeps_ui (mocha : Framework) (hmocha : SetupKeepsUi mocha) (u : String)
    (hu : u ≠ "") (depth : Nat) (calls : List (JSFun × List JSVal)) :
    ∀ w : World, w.mochaOptions.ui = some u →
      (runCalls mocha depth calls w).mochaOptions.ui = some u := by
  induction calls with
  | nil =>
    intro w hui
    exact hui
  | cons call rest ih =>
    intro w hui
    exact ih _ (invoke_keeps_ui mocha hmocha u hu depth call.1 call.2 w hui)

theorem setupMocha_records (mocha : Framework) (hmocha : SetupKeepsUi mocha)
    (ui key alternate : String) (w : World) (hui : w.mochaOptions.ui = none)
    (hflag : w._mochaIsSetup = false) :
    (_setupMocha mocha ui key alternate w).1.mochaOptions.ui = some ui := by
  rw [setupMocha_fresh mocha ui key alternate w hui hflag]
  exact hmocha { ui := some ui } w.window

theorem demoMocha_keeps_ui : SetupKeepsUi demoMocha := by
  intro options window
  rfl

/-- C3: with a framework whose setup does not write the `ui` field, starting
with no style recorded (and the flag at its initial value), the first call of
an installed wrapper records that wrapper's own style in `mochaOptions.ui`, and
after each of any further calls (of wrappers of either style, or of any other
function value), whether they return or throw, `mochaOptions.ui` is still that
style. -/
theorem one_style_per_process (mocha : Framework) (hmocha : SetupKeepsUi mocha)
    (depth gen : Nat) (ui : String) (defs : StyleDefinition) (key alternate : String)
    (args : List JSVal) (later : List (JSFun × List JSVal)) (w : World)
    (hstyle : (ui, defs) ∈ MOCHA_EXPORTS) (_hkey : (key, alternate) ∈ defs)
    (hui : w.mochaOptions.ui = none) (hflag : w._mochaIsSetup = false) :
    ∀ n, (runCalls mocha (depth + 1) ((.wrapped gen ui key, args) :: later.take n)
      w).mochaOptions.ui = some ui := by
  intro n
  have hu := style_ne_empty ui defs hstyle
  have hfirst : (invoke mocha (depth + 1) (.wrapped gen ui key) args w).1.mochaOptions.ui =
      some ui := by
    rw [invoke_wrapped]
    have hset := setupMocha_records mocha hmocha ui key (alternateOf ui key) w hui hflag
    rcases wrappedMochaFunction_world mocha (invoke mocha depth) gen ui key args w with
      h | ⟨g, h⟩
    · rw [h]
      exact hset
    · rw [h]
      exact invoke_keeps_ui mocha hmocha ui hu depth g args _ hset
  exact runCalls_keeps_ui mocha hmocha ui hu (depth + 1) (later.take n) _ hfirst

theorem one_style_per_process_witness :
    SetupKeepsUi demoMocha ∧
    ("tdd", MOCHA_EXPORTS_tdd) ∈ MOCHA_EXPORTS ∧
    ("suite", "\"describe\" or \"context\"") ∈ MOCHA_EXPORTS_tdd ∧
    stubbedWorld.mochaOptions.ui = none ∧ stubbedWorld._mochaIsSetup = false ∧
    ∀ n, (runCalls demoMocha 2
      ((.wrapped 0 "tdd" "suite", []) ::
        ([(.wrapped 0 "bdd" "describe", []), (.wrapped 0 "tdd" "test", [.str "t"])] :
          List (JSFun × List JSVal)).take n)
      stubbedWorld).mochaOptions.ui = some "tdd" :=
  ⟨demoMocha_keeps_ui, by decide, by decide, rfl, rfl,
    one_style_per_process demoMocha demoMocha_keeps_ui 1 0 "tdd" MOCHA_EXPORTS_tdd "suite"
      "\"describe\" or \"context\""
      [] [(.wrapped 0 "bdd" "describe", []), (.wrapped 0 "tdd" "test", [.str "t"])]
      stubbedWorld (by decide) (by decide) rfl rfl⟩

/-- C4, what the code does: no path of `_setupMocha` assigns `_mochaIsSetup`, so
the flag keeps its value; with a well-behaved framework, calling the `suite`
wrapper twice (or `suite()`, `stubInterfaces()`, `suite()`) calls `mocha.setup`
twice, and the flag is still false after the first successful setup. -/
theorem setup_runs_again :
    (∀ (mocha : Framework) (ui key alternate : String) (w : World),
      (_setupMocha mocha ui key alternate w).1._mochaIsSetup = w._mochaIsSetup) ∧
    stubbedWorld.window "suite" = some suiteStub ∧
    (invoke demoMocha 2 suiteStub [] stubbedWorld).2 = .ok .undefined ∧
    (invoke demoMocha 2 suiteStub [] stubbedWorld).1.setupCalls = [{ ui := some "tdd" }] ∧
    (invoke demoMocha 2 suiteStub [] stubbedWorld).1._mochaIsSetup = false ∧
    (invoke demoMocha 2 suiteStub []
      (invoke demoMocha 2 suiteStub [] stubbedWorld).1).1.setupCalls =
        [{ ui := some "tdd" }, { ui := some "tdd" }] ∧
    (callGlobal demoMocha 2 "suite" []
      (stubInterfaces (callGlobal demoMocha 2 "suite" [] stubbedWorld).1)).1.setupCalls =
        [{ ui := some "tdd" }, { ui := some "tdd" }] := by
  refine ⟨setupMocha_flag, ?_, ?_, ?_, ?_, ?_, ?_⟩ <;> decide

/-! ## `extendInterfaces` -/

theorem getProp_setProp {α : Type} (obj : List (String × α)) (k name : String) (value : α) :
    getProp (setProp obj k value) name =
      if name = k then (getProp obj k).map (fun _ => value) else getProp obj name := by
  induction obj with
  | nil => simp [setProp, getProp]
  | cons p rest ih =>
    obtain ⟨q, v⟩ := p
    by_cases hq : q = k
    · have hstep : setProp ((q, v) :: rest) k value = (q, value) :: setProp rest k value := by
        simp [setProp, hq]
      rw [hstep]
      simp only [getProp]
      rw [ih]
      subst hq
      by_cases hn : name = q
      · subst hn
        simp
      · have hn2 : ¬ q = name := fun h => hn h.symm
        simp [hn, hn2]
    · have hstep : setProp ((q, v) :: rest) k value = (q, v) :: setProp rest k value := by
        simp [setProp, hq]
      rw [hstep]
      simp only [getProp]
      rw [ih]
      by_cases hn : name = k
      · subst hn
        simp [hq]
      · simp [hn]

theorem getProp_mem_keys {α : Type} (obj : List (String × α)) (name : String) (value : α)
    (hget : getProp obj name = some value) : name ∈ objectKeys obj := by
  unfold objectKeys
  rw [List.mem_dedup]
  induction obj with
  | nil => simp [getProp] at hget
  | cons p rest ih =>
    obtain ⟨q, v⟩ := p
    by_cases hq : q = name
    · simp [hq]
    · simp only [getProp, hq, if_false] at hget
      simp [ih hget]

theorem extend_fold (helperName : String) (helperFactory : HelperFactory) (name : String)
    (keys : List String) (hnodup : keys.Nodup) :
    ∀ obj : List (String × Installer),
      getProp
        (keys.foldl
          (fun interfaces interfaceName =>
            match getProp interfaces interfaceName with
            | none => interfaces
            | some originalInterface =>
              setProp interfaces interfaceName
                (.extended originalInterface helperName helperFactory interfaceName))
          obj) name =
        if name ∈ keys then
          (getProp obj name).map (fun o => .extended o helperName helperFactory name)
        else getProp obj name := by
  induction keys with
  | nil =>
    intro obj
    simp
  | cons k rest ih =>
    intro obj
    rw [List.nodup_cons] at hnodup
    rw [List.foldl_cons, ih hnodup.2]
    by_cases hk : name = k
    · subst hk
      rw [if_neg hnodup.1, if_pos (List.mem_cons_self _ _)]
      cases hget : getProp obj name with
      | none => simp [hget]
      | some o => simp [getProp_setProp, hget]
    · have hstep : ∀ o : Installer, getProp (setProp obj k o) name = getProp obj name := by
        intro o
        rw [getProp_setProp, if_neg hk]
      have hsame : getProp
          (match getProp obj k with
            | none => obj
            | some originalInterface =>
              setProp obj k (.extended originalInterface helperName helperFactory k)) name =
          getProp obj name := by
        cases getProp obj k with
        | none => rfl
        | some o => exact hstep _
      rw [hsame]
      by_cases hr : name ∈ rest
      · rw [if_pos hr, if_pos (List.mem_cons_of_mem _ hr)]
      · rw [if_neg hr, if_neg]
        intro hmem
        rcases List.mem_cons.1 hmem with h | h
        · exact hk h
        · exact hr h

theorem extendInterfaces_get (helperName : String) (helperFactory : HelperFactory)
    (Mocha : MochaClass) (interfaceName : String) (installer : Installer)
    (hreg : getProp Mocha.interfaces interfaceName = some installer) :
    getProp (extendInterfaces helperName helperFactory Mocha).interfaces interfaceName =
      some (.extended installer helperName helperFactory interfaceName) := by
  unfold extendInterfaces
  simp only []
  rw [extend_fold helperName helperFactory interfaceName (objectKeys Mocha.interfaces)
    (List.nodup_dedup _) Mocha.interfaces,
    if_pos (getProp_mem_keys _ _ _ hreg), hreg]
  rfl

theorem emit_on (suite : Suite) (event : String) (listener : Listener) (context : Context)
    (file : String) :
    (suite.on event listener).emit event context file =
      listener.fire (suite.emit event context file) file := by
  simp [Suite.on, Suite.emit, List.foldl_append]

/-- C8: after `extendInterfaces(h, f)`, the installer registered under
interface name `i` is a function that first runs the installer registered
before (same suite, same calls of framework installers, everything it
registered still registered and ahead of the new listener) and then registers
one `pre-require` listener; on every `pre-require` event of the suite, whatever
the file and its context, the context ends with `c[h]` equal to `f(c, i)`,
where `c` is the context as the earlier listeners left it, and with every other
property as they left it. -/
theorem extendInterfaces_adds_helper (helperName : String) (helperFactory : HelperFactory)
    (Mocha : MochaClass) (interfaceName : String) (installer : Installer)
    (install : Nat → Suite → Suite) (suite : Suite)
    (hreg : getProp Mocha.interfaces interfaceName = some installer) :
    getProp (extendInterfaces helperName helperFactory Mocha).interfaces interfaceName =
      some (.extended installer helperName helperFactory interfaceName) ∧
    (runInstaller install (.extended installer helperName helperFactory interfaceName)
      suite).2 = (runInstaller install installer suite).2 ∧
    (∀ id, installer = .original id →
      (runInstaller install (.extended installer helperName helperFactory interfaceName)
        suite).2 = [(id, suite)]) ∧
    (runInstaller install (.extended installer helperName helperFactory interfaceName)
      suite).1.listeners =
        (runInstaller install installer suite).1.listeners ++
          [("pre-require", .helper helperName helperFactory interfaceName)] ∧
    ∀ (context : Context) (file : String),
      (runInstaller install (.extended installer helperName helperFactory interfaceName)
        suite).1.emit "pre-require" context file helperName =
          some (helperFactory
            ((runInstaller install installer suite).1.emit "pre-require" context file)
            interfaceName) ∧
      ∀ name, name ≠ helperName →
        (runInstaller install (.extended installer helperName helperFactory interfaceName)
          suite).1.emit "pre-require" context file name =
            (runInstaller install installer suite).1.emit "pre-require" context file name := by
  refine ⟨extendInterfaces_get helperName helperFactory Mocha interfaceName installer hreg,
    rfl, ?_, rfl, ?_⟩
  · intro id hid
    subst hid
    rfl
  · intro context file
    have hrun : (runInstaller install
        (.extended installer helperName helperFactory interfaceName) suite).1 =
        (runInstaller install installer suite).1.on "pre-require"
          (.helper helperName helperFactory interfaceName) := rfl
    rw [hrun, emit_on]
    constructor
    · simp [Listener.fire]
    · intro name hname
      simp [Listener.fire, Function.update_noteq hname]

theorem extendInterfaces_adds_helper_witness :
    getProp demoMochaClass.interfaces "bdd" = some (.original 0) ∧
    ∀ (context : Context) (file : String),
      (runInstaller demoInstall (.extended (.original 0) "foo" demoFactory "bdd")
        ⟨[]⟩).1.emit "pre-require" context file "foo" =
          some (demoFactory
            ((runInstaller demoInstall (.original 0) ⟨[]⟩).1.emit "pre-require" context file)
            "bdd") :=
  ⟨rfl, fun context file =>
    ((extendInterfaces_adds_helper "foo" demoFactory demoMochaClass "bdd" (.original 0)
      demoInstall ⟨[]⟩ rfl).2.2.2.2 context file).1⟩

/-- C9: two calls `extendInterfaces(h1, f1)` then `extendInterfaces(h2, f2)` with
`h1` different from `h2` compose.  The installer then registered under `i` runs
the installer registered before exactly as one run of it would (a framework
installer is called once, with the suite given) and registers the two
listeners after its own, in call order; a file loaded afterwards has both
`c[h1]` (the result of `f1`) and `c[h2]` (the result of `f2`) in its context. -/
theorem extendInterfaces_compose (h1 h2 : String) (f1 f2 : HelperFactory)
    (Mocha : MochaClass) (interfaceName : String) (installer : Installer)
    (install : Nat → Suite → Suite) (suite : Suite) (hne : h1 ≠ h2)
    (hreg : getProp Mocha.interfaces interfaceName = some installer) :
    getProp (extendInterfaces h2 f2 (extendInterfaces h1 f1 Mocha)).interfaces interfaceName =
      some (.extended (.extended installer h1 f1 interfaceName) h2 f2 interfaceName) ∧
    (runInstaller install
      (.extended (.extended installer h1 f1 interfaceName) h2 f2 interfaceName) suite).2 =
        (runInstaller install installer suite).2 ∧
    (∀ id, installer = .original id →
      (runInstaller install
        (.extended (.extended installer h1 f1 interfaceName) h2 f2 interfaceName) suite).2 =
          [(id, suite)]) ∧
    (runInstaller install
      (.extended (.extended installer h1 f1 interfaceName) h2 f2 interfaceName)
      suite).1.listeners =
        (runInstaller install installer suite).1.listeners ++
          [("pre-require", .helper h1 f1 interfaceName),
            ("pre-require", .helper h2 f2 interfaceName)] ∧
    ∀ (context : Context) (file : String),
      (runInstaller install
        (.extended (.extended installer h1 f1 interfaceName) h2 f2 interfaceName)
        suite).1.emit "pre-require" context file h1 =
          some (f1 ((runInstaller install installer suite).1.emit "pre-require" context file)
            interfaceName) ∧
      (runInstaller install
        (.extended (.extended installer h1 f1 interfaceName) h2 f2 interfaceName)
        suite).1.emit "pre-require" context file h2 =
          some (f2
            (Function.update
              ((runInstaller install installer suite).1.emit "pre-require" context file) h1
              (some (f1
                ((runInstaller install installer suite).1.emit "pre-require" context file)
                interfaceName)))
            interfaceName) := by
  refine ⟨?_, rfl, ?_, ?_, ?_⟩
  · exact extendInterfaces_get h2 f2 _ interfaceName _
      (extendInterfaces_get h1 f1 Mocha interfaceName installer hreg)
  · intro id hid
    subst hid
    rfl
  · simp [runInstaller, Suite.on]
  · intro context file
    have hrun : (runInstaller install
        (.extended (.extended installer h1 f1 interfaceName) h2 f2 interfaceName) suite).1 =
        ((runInstaller install installer suite).1.on "pre-require"
          (.helper h1 f1 interfaceName)).on "pre-require" (.helper h2 f2 interfaceName) := rfl
    rw [hrun, emit_on, emit_on]
    constructor
    · simp [Listener.fire, Function.update_noteq hne]
    · simp [Listener.fire]

theorem extendInterfaces_compose_witness :
    "foo" ≠ "bar" ∧
    getProp demoMochaClass.interfaces "tdd" = some (.original 1) ∧
    (runInstaller demoInstall
      (.extended (.extended (.original 1) "foo" demoFactory "tdd") "bar" demoFactory2 "tdd")
      ⟨[]⟩).2 = (runInstaller demoInstall (.original 1) ⟨[]⟩).2 :=
  ⟨by decide, rfl,
    (extendInterfaces_compose "foo" "bar" demoFactory demoFactory2 demoMochaClass "tdd"
      (.original 1) demoInstall ⟨[]⟩ (by decide) rfl).2.1⟩

end WCT
